import Mathlib

/-!
Shallow embedding of the counter reconciliation and history/undo subsystem of
src/app/counter/[eventId]/page.tsx, together with the remote-store helpers of
src/lib/queries.ts.

Modelling conventions:
* JavaScript numbers are modelled as integers: every quantity and timestamp
  this subsystem handles is integral, Math.floor is then the identity and the
  clamp at zero of sanitizeQty is Int.toNat.
* Timestamps are milliseconds since the epoch (Date.getTime).  The final sort
  of buildSnapshots compares Date.toISOString strings, which for the
  fixed-width ISO-8601 format coincides with numeric comparison of the
  underlying milliseconds, so snapshots carry the integer timestamp directly.
* Records and Maps keyed by pizza id are association lists with
  replace-or-append update, mirroring JavaScript key-insertion order; a JS
  stable sort (Array.prototype.sort) is modelled by insertion sort, which is
  stable and sorts according to the comparator.
* The remote pizza_totals table for the one event under view is the field
  store; each issued upsert call is recorded in writeLog; a failed remote
  write (the thrown branch of an await) is modelled by the flag ok = false,
  in which case the store is not modified.
* The React pair totals / totalsRef.current is a single field totals: the
  code always writes both together.  Error-string states (totalsError and
  friends) and the history-panel open/refresh flags are not modelled; the
  user feedback banner is.
-/

/-- Association-list read; models record access m[k] and Map.get(k). -/
def getA {β : Type} : List (String × β) → String → Option β
  | [], _ => none
  | e :: rest, k => if e.1 == k then some e.2 else getA rest k

/-- Association-list write; models record assignment m[k] = v and Map.set
(replace the existing entry in place, or append a new one). -/
def setA {β : Type} : List (String × β) → String → β → List (String × β)
  | [], k, v => [(k, v)]
  | e :: rest, k, v => if e.1 == k then (k, v) :: rest else e :: setA rest k v

/-- The TS type Totals = Record<string, number>: per-item quantities keyed by
pizza id. -/
abbrev Totals : Type := List (String × Nat)

/-- A pizza catalog row (src/lib/types.ts). -/
structure Pizza where
  id : String
  name : String
  vegetarian : Bool
  vegan : Bool
  deriving DecidableEq

/-- sanitizeQty (page.tsx line 35): Math.max(0, Math.floor(v)) with
non-finite inputs sent to 0; on integers this is Int.toNat. -/
def sanitizeQty (value : Int) : Nat :=
  value.toNat

/-- buildInitialTotals (page.tsx line 38): every allowed pizza mapped to 0. -/
def buildInitialTotals (pizzas : List Pizza) : Totals :=
  pizzas.foldl (fun acc pizza => setA acc pizza.id 0) []

/-- normalizeTotals (page.tsx line 44): one sanitized entry per allowed
pizza, defaulting missing input entries to 0, dropping entries for other
ids. -/
def normalizeTotals (pizzas : List Pizza) (input : Totals) : Totals :=
  pizzas.foldl
    (fun result pizza =>
      setA result pizza.id (sanitizeQty (((getA input pizza.id).getD 0 : Nat) : Int)))
    (buildInitialTotals pizzas)

/-- totalsEqual (page.tsx line 56): pointwise comparison over the given
pizza set only, missing entries read as 0. -/
def totalsEqual (pizzas : List Pizza) (a b : Totals) : Bool :=
  pizzas.all (fun pizza => (getA a pizza.id).getD 0 == (getA b pizza.id).getD 0)

/-- A snapshot line item (page.tsx interface SnapshotItem). -/
structure SnapshotItem where
  pizza_id : String
  new_qty : Nat
  deriving DecidableEq

/-- A derived history snapshot (page.tsx interface Snapshot).  The source
field named at is called atTime here because at is a Lean keyword; it holds
the bucket timestamp in milliseconds (see the module comment). -/
structure Snapshot where
  key : String
  atTime : Int
  items : List SnapshotItem
  highlighted : List String
  summary : String
  deriving DecidableEq

/-- Models label.split(" ")[0] inside buildSnapshotSummary: the prefix of
the label up to the first space.  A JS split never yields an empty array,
so the ?? pizza.id fallback on that index is dead code. -/
def firstWord (s : String) : String :=
  String.mk (s.data.takeWhile (fun c => c != ' '))

/-- buildSnapshotSummary (page.tsx line 117): comma-joined
firstWordOfLabel:qty for each allowed pizza present in items, or the
literal "No data" when the joined string is empty. -/
def buildSnapshotSummary (pizzas : List Pizza) (items : List SnapshotItem) : String :=
  let labelById := pizzas.foldl (fun acc pizza => setA acc pizza.id pizza.name) []
  let parts := pizzas.filterMap (fun pizza =>
    match items.find? (fun item => item.pizza_id == pizza.id) with
    | none => none
    | some m =>
        let label := firstWord ((getA labelById pizza.id).getD pizza.id)
        some (label ++ ":" ++ toString m.new_qty))
  let joined := String.intercalate ", " parts
  if joined == "" then "No data" else joined

/-- A raw pizza_adjustments row as fetched (nullable fields); atTime is
none when the at column is null or fails Date parsing. -/
structure RawRow where
  pizza_id : Option String
  new_qty : Option Int
  atTime : Option Int
  deriving DecidableEq

/-- A normalized adjustment row (the non-null element type produced by the
map/filter pipeline at the top of buildSnapshots). -/
structure NRow where
  pizza_id : String
  new_qty : Nat
  atTime : Int
  deriving DecidableEq

/-- The row-normalization step of buildSnapshots (page.tsx lines 144 to
164): discard rows with null fields, unparseable timestamps, or ids outside
the allowed set; sanitize the quantity. -/
def normalizeRow (pizzas : List Pizza) (row : RawRow) : Option NRow :=
  match row.atTime, row.pizza_id, row.new_qty with
  | some t, some pid, some q =>
      if pizzas.any (fun pizza => pizza.id == pid) then
        some { pizza_id := pid, new_qty := sanitizeQty q, atTime := t }
      else
        none
  | _, _, _ => none

/-- The ascending comparator of the first sort in buildSnapshots
(a.at.getTime() - b.at.getTime()). -/
def rowLe (a b : NRow) : Prop := a.atTime ≤ b.atTime

instance : DecidableRel rowLe :=
  fun a b => inferInstanceAs (Decidable (a.atTime ≤ b.atTime))

instance : IsTotal NRow rowLe := ⟨fun a b => Int.le_total a.atTime b.atTime⟩

instance : IsTrans NRow rowLe := ⟨fun _ _ _ h1 h2 => Int.le_trans h1 h2⟩

/-- The descending comparator of the final sort in buildSnapshots
(a.at < b.at ? 1 : -1 on ISO strings, equivalently on milliseconds). -/
def snapDesc (a b : Snapshot) : Prop := b.atTime ≤ a.atTime

instance : DecidableRel snapDesc :=
  fun a b => inferInstanceAs (Decidable (b.atTime ≤ a.atTime))

/-- The mutable locals of the bucketing loop in buildSnapshots. -/
structure BucketState where
  runningTotals : Totals
  bucketSecond : Option Int
  bucketTime : Option Int
  changedInBucket : List String
  snapshotsAsc : List Snapshot

/-- JS Set.add: append if absent, keeping insertion order. -/
def addToSet (s : List String) (x : String) : List String :=
  if s.contains x then s else s ++ [x]

/-- flushBucket (page.tsx line 181): emit a snapshot of the current running
totals for the open bucket, if any. -/
def flushBucket (pizzas : List Pizza) (st : BucketState) : List Snapshot :=
  match st.bucketSecond, st.bucketTime with
  | some second, some t =>
      let items := pizzas.map (fun pizza =>
        { pizza_id := pizza.id
          new_qty := (getA st.runningTotals pizza.id).getD 0 : SnapshotItem })
      st.snapshotsAsc ++
        [{ key := toString second, atTime := t, items := items,
           highlighted := st.changedInBucket,
           summary := buildSnapshotSummary pizzas items }]
  | _, _ => st.snapshotsAsc

/-- One iteration of the row loop in buildSnapshots (page.tsx lines 200 to
223): open or roll the second-keyed bucket, then apply the write to the
running totals, recording the item as changed when its value moved. -/
def stepRow (pizzas : List Pizza) (st : BucketState) (row : NRow) : BucketState :=
  let second := Int.fdiv row.atTime 1000
  let st :=
    if st.bucketSecond = none then
      { st with bucketSecond := some second, bucketTime := some row.atTime,
                changedInBucket := [] }
    else st
  let st :=
    if st.bucketSecond ≠ some second then
      { st with snapshotsAsc := flushBucket pizzas st,
                bucketSecond := some second, bucketTime := some row.atTime,
                changedInBucket := [] }
    else
      match st.bucketTime with
      | some t =>
          if row.atTime > t then { st with bucketTime := some row.atTime } else st
      | none => st
  let previousQty := (getA st.runningTotals row.pizza_id).getD 0
  let nextQty := sanitizeQty ((row.new_qty : Nat) : Int)
  let st := { st with runningTotals := setA st.runningTotals row.pizza_id nextQty }
  if nextQty ≠ previousQty then
    { st with changedInBucket := addToSet st.changedInBucket row.pizza_id }
  else st

/-- buildSnapshots (page.tsx lines 135 to 228): normalize and sort the
adjustment rows ascending by timestamp, replay them through second-keyed
buckets over running totals seeded to 0 for every allowed pizza, flush the
final bucket, and return the snapshots sorted most-recent-first. -/
def buildSnapshots (rows : List RawRow) (pizzas : List Pizza) : List Snapshot :=
  let normalizedRows :=
    List.insertionSort rowLe (rows.filterMap (normalizeRow pizzas))
  if normalizedRows.isEmpty then []
  else
    let init : BucketState :=
      { runningTotals := pizzas.foldl (fun acc pizza => setA acc pizza.id 0) [],
        bucketSecond := none, bucketTime := none,
        changedInBucket := [], snapshotsAsc := [] }
    let final := normalizedRows.foldl (stepRow pizzas) init
    List.insertionSort snapDesc (flushBucket pizzas final)

/-- The pizza_totals rows of the one event under view, keyed by pizza id. -/
abbrev Store : Type := List (String × Nat)

/-- buildTotalsFromRows (page.tsx line 229): start from all-zero totals and
overwrite from the fetched rows, ignoring ids outside the allowed set. -/
def buildTotalsFromRows (rows : Store) (pizzas : List Pizza) : Totals :=
  let base := buildInitialTotals pizzas
  if rows.isEmpty || pizzas.isEmpty then base
  else
    rows.foldl
      (fun acc row =>
        if pizzas.any (fun pizza => pizza.id == row.1) then
          setA acc row.1 (sanitizeQty ((row.2 : Nat) : Int))
        else acc)
      base

/-- upsertPizzaTotals (src/lib/queries.ts): sanitize each entry and upsert
keyed by (event id, pizza id); the Number.isFinite filter is vacuous on
integers.  The early return on an empty entry list (no store call at all)
is modelled in issueWrite. -/
def upsertPizzaTotals (counts : List (String × Nat)) (store : Store) : Store :=
  let entries := counts.map (fun e => (e.1, sanitizeQty ((e.2 : Nat) : Int)))
  entries.foldl (fun st e => setA st e.1 e.2) store

/-- The user feedback banner (page.tsx type Feedback). -/
inductive Feedback where
  | success (text : String)
  | error (text : String)
  deriving DecidableEq

/-- The in-memory state of the counter page together with the remote store
and the log of issued upsert calls (see the module comment). -/
structure CounterState where
  allowedPizzas : List Pizza
  totals : Totals
  draftTotals : Totals
  previousTotals : Totals
  hasLoaded : Bool
  undoSnapshot : Option Snapshot
  restoringKey : Option String
  savingPizza : Option String
  feedback : Option Feedback
  store : Store
  writeLog : List (List (String × Nat))
  deriving DecidableEq

/-- One upsertPizzaTotals call from a handler: with an empty payload the
function returns before touching the store; otherwise the issued call is
logged and, when the remote write succeeds (ok), the store is updated. -/
def issueWrite (ok : Bool) (counts : List (String × Nat)) (s : CounterState) : CounterState :=
  if counts.isEmpty then s
  else
    { s with writeLog := s.writeLog ++ [counts],
             store := if ok then upsertPizzaTotals counts s.store else s.store }

/-- applyTotals (page.tsx lines 318 to 337): normalize the incoming totals
against the given pizza set; after the first load, a pointwise-equal result
is a no-op; otherwise roll previous/committed/draft forward. -/
def applyTotals (s : CounterState) (incoming : Totals) (pizzas : List Pizza) : CounterState :=
  let normalized := normalizeTotals pizzas incoming
  if s.hasLoaded && totalsEqual pizzas normalized s.totals then s
  else
    let previous := if s.hasLoaded then normalizeTotals pizzas s.totals else normalized
    { s with previousTotals := previous, totals := normalized,
             draftTotals := normalized, hasLoaded := true }

/-- handleSynchronizeTotals (page.tsx line 448): re-fetch the totals rows
and reconcile them through applyTotals against the current allowed set. -/
def handleSynchronizeTotals (s : CounterState) : CounterState :=
  applyTotals s (buildTotalsFromRows s.store s.allowedPizzas) s.allowedPizzas

/-- commitCount (page.tsx lines 574 to 616).  The success feedback text in
the source interpolates the pizza label and quantity; it is modelled by a
fixed success string, with only the distinct no-op message kept verbatim. -/
def commitCount (ok : Bool) (s : CounterState) (pizzaId : String) (targetValue : Int) :
    CounterState :=
  if !(s.allowedPizzas.any (fun pizza => pizza.id == pizzaId)) then s
  else
    let sanitized := sanitizeQty targetValue
    let s1 := { s with draftTotals := setA s.draftTotals pizzaId sanitized }
    let currentValue := (getA s1.totals pizzaId).getD 0
    if sanitized == currentValue then
      { s1 with feedback := some (Feedback.success "All caught up.") }
    else
      let s2 := { s1 with savingPizza := some pizzaId, feedback := none }
      if ok then
        let s3 := issueWrite true [(pizzaId, sanitized)] s2
        let s4 := { s3 with feedback := some (Feedback.success "Saved count.") }
        let s5 := handleSynchronizeTotals s4
        { s5 with savingPizza := none }
      else
        let s3 := issueWrite false [(pizzaId, sanitized)] s2
        { s3 with feedback := some (Feedback.error "Could not update pizzas."),
                  savingPizza := none }

/-- handleAdjust (page.tsx lines 618 to 639): the plus/minus buttons;
blocked while a save or a restore is in flight. -/
def handleAdjust (ok : Bool) (s : CounterState) (pizzaId : String) (delta : Int) :
    CounterState :=
  if !(s.allowedPizzas.any (fun pizza => pizza.id == pizzaId)) || s.savingPizza.isSome
      || s.restoringKey.isSome then s
  else
    let currentValue := (getA s.draftTotals pizzaId).getD 0
    let nextValue := max 0 ((currentValue : Int) + delta)
    commitCount ok s pizzaId nextValue

/-- handleInputBlur (page.tsx lines 658 to 667): commits the typed value;
note it does not consult savingPizza or restoringKey. -/
def handleInputBlur (ok : Bool) (s : CounterState) (pizzaId : String) (value : Int) :
    CounterState :=
  if !(s.allowedPizzas.any (fun pizza => pizza.id == pizzaId)) then s
  else commitCount ok s pizzaId value

/-- The Enter branch of handleInputKeyDown (page.tsx lines 669 to 681):
calls commitCount directly with no guard at all. -/
def handleInputKeyDownEnter (ok : Bool) (s : CounterState) (pizzaId : String) (value : Int) :
    CounterState :=
  commitCount ok s pizzaId value

/-- The payload computation shared verbatim by handleRestore and handleUndo
(page.tsx lines 711 to 715 and 787 to 789): the snapshot items restricted to
the currently allowed set, as sanitized (id, qty) pairs. -/
def restorePayload (pizzas : List Pizza) (items : List SnapshotItem) : List (String × Nat) :=
  (items.filter (fun entry =>
    pizzas.any (fun pizza => pizza.id == entry.pizza_id))).map
    (fun entry => (entry.pizza_id, sanitizeQty ((entry.new_qty : Nat) : Int)))

/-- handleRestore (page.tsx lines 697 to 776); now models Date.now() at the
moment the undo snapshot is created. -/
def handleRestore (ok : Bool) (now : Int) (s : CounterState) (snapshot : Snapshot) :
    CounterState :=
  if snapshot.items.isEmpty then
    { s with feedback := some (Feedback.error "Snapshot has no data to restore.") }
  else
    let s1 := { s with restoringKey := some snapshot.key, feedback := none }
    let payloadEntries := restorePayload s.allowedPizzas snapshot.items
    if payloadEntries.isEmpty then
      { s1 with feedback := some (Feedback.error "No valid pizzas to restore for this package."),
                restoringKey := none }
    else
      let currentTotals := normalizeTotals s.allowedPizzas s.totals
      let previousItems : List SnapshotItem := s.allowedPizzas.map (fun pizza =>
        { pizza_id := pizza.id, new_qty := (getA currentTotals pizza.id).getD 0 })
      let snapshotMap :=
        snapshot.items.foldl (fun m entry => setA m entry.pizza_id entry.new_qty) []
      let undoHighlights := (s.allowedPizzas.map (fun pizza => pizza.id)).filter
        (fun id => (getA snapshotMap id).getD 0 != (getA currentTotals id).getD 0)
      if ok then
        let s2 := issueWrite true payloadEntries s1
        let s3 := { s2 with
          undoSnapshot := some
            { key := "undo-" ++ toString now, atTime := now, items := previousItems,
              highlighted := undoHighlights,
              summary := buildSnapshotSummary s.allowedPizzas previousItems },
          feedback := some (Feedback.success "Snapshot restored.") }
        let s4 := handleSynchronizeTotals s3
        { s4 with restoringKey := none }
      else
        let s2 := issueWrite false payloadEntries s1
        { s2 with feedback := some (Feedback.error "Could not restore snapshot."),
                  restoringKey := none }

/-- handleUndo (page.tsx lines 778 to 821). -/
def handleUndo (ok : Bool) (s : CounterState) : CounterState :=
  match s.undoSnapshot with
  | none => s
  | some undo =>
      let s1 := { s with restoringKey := some "undo", feedback := none }
      let payloadEntries := restorePayload s.allowedPizzas undo.items
      if payloadEntries.isEmpty then
        { s1 with feedback := some (Feedback.error "Nothing to undo for this package."),
                  restoringKey := none }
      else if ok then
        let s2 := issueWrite true payloadEntries s1
        let s3 := { s2 with feedback := some (Feedback.success "Undo applied."),
                            undoSnapshot := none }
        let s4 := handleSynchronizeTotals s3
        { s4 with restoringKey := none }
      else
        let s2 := issueWrite false payloadEntries s1
        { s2 with feedback := some (Feedback.error "Could not undo restore."),
                  restoringKey := none }

/-- The useEffect keyed on allowedPizzas (page.tsx lines 497 to 511): after
an allowed-set change, re-normalize all three totals maps (and the ref)
against the new set.  The package-change notice banner is not modelled. -/
def renormalizeEffect (s : CounterState) : CounterState :=
  { s with totals := normalizeTotals s.allowedPizzas s.totals,
           draftTotals := normalizeTotals s.allowedPizzas s.draftTotals,
           previousTotals := normalizeTotals s.allowedPizzas s.previousTotals }

/-- A stored pizza_adjustments row (non-null columns, as persisted). -/
structure DbRow where
  pizza_id : String
  new_qty : Int
  atTime : Int
  deriving DecidableEq

/-- The order("at", descending) comparator of the history query. -/
def dbDescAt (a b : DbRow) : Prop := b.atTime ≤ a.atTime

instance : DecidableRel dbDescAt :=
  fun a b => inferInstanceAs (Decidable (b.atTime ≤ a.atTime))

/-- The fetched row as it reaches buildSnapshots (the loosely typed cast in
fetchHistory makes every column nullable). -/
def toRaw (row : DbRow) : RawRow :=
  { pizza_id := some row.pizza_id, new_qty := some row.new_qty,
    atTime := some row.atTime }

/-- The remote query of fetchHistory (page.tsx lines 464 to 469): the
event-scoped adjustment rows ordered by at descending, limited to 50. -/
def fetchHistoryRows (table : List DbRow) : List DbRow :=
  (List.insertionSort dbDescAt table).take 50

/-- fetchHistory (page.tsx lines 459 to 491): snapshots built from the
retained window of at most 50 most recent rows. -/
def historySnapshots (table : List DbRow) (pizzas : List Pizza) : List Snapshot :=
  buildSnapshots ((fetchHistoryRows table).map toRaw) pizzas

/-! Basic lemmas about the association-list operations. -/

theorem sanitizeQty_natCast (n : Nat) : sanitizeQty ((n : Nat) : Int) = n :=
  Int.toNat_natCast n

theorem getA_setA {β : Type} (m : List (String × β)) (k k' : String) (v : β) :
    getA (setA m k v) k' = if k' = k then some v else getA m k' := by
  induction m with
  | nil =>
      show getA [(k, v)] k' = if k' = k then some v else none
      by_cases h : k' = k
      · subst h
        simp [getA]
      · have hkk : (k == k') = false := by
          rw [beq_eq_false_iff_ne]
          exact fun hk => h hk.symm
        simp [getA, hkk, h]
  | cons e rest ih =>
      by_cases he : e.1 = k
      · have heb : (e.1 == k) = true := beq_iff_eq.mpr he
        show getA (if e.1 == k then (k, v) :: rest else e :: setA rest k v) k' =
          if k' = k then some v else getA (e :: rest) k'
        rw [if_pos heb]
        by_cases h : k' = k
        · subst h
          simp [getA]
        · have hkk : (k == k') = false := by
            rw [beq_eq_false_iff_ne]
            exact fun hk => h hk.symm
          have hek : (e.1 == k') = false := by
            rw [beq_eq_false_iff_ne, he]
            exact fun hk => h hk.symm
          simp [getA, hkk, hek, h]
      · have heb : (e.1 == k) = false := beq_eq_false_iff_ne.mpr he
        show getA (if e.1 == k then (k, v) :: rest else e :: setA rest k v) k' =
          if k' = k then some v else getA (e :: rest) k'
        rw [if_neg (by simp [heb])]
        show (if e.1 == k' then some e.2 else getA (setA rest k v) k') =
          if k' = k then some v else getA (e :: rest) k'
        by_cases he' : e.1 = k'
        · have heb' : (e.1 == k') = true := beq_iff_eq.mpr he'
          have h : ¬k' = k := fun hk => he (he'.trans hk)
          simp [getA, heb', h]
        · have heb' : (e.1 == k') = false := beq_eq_false_iff_ne.mpr he'
          rw [if_neg (by simp [heb']), ih]
          by_cases h : k' = k
          · simp [h]
          · simp [getA, h, heb']

theorem getA_foldl_setA {β α : Type} (key : α → String) (val : α → β)
    (l : List α) (init : List (String × β)) (k : String) (v : β)
    (h : ∀ a ∈ l, key a = k → val a = v) :
    getA (l.foldl (fun acc a => setA acc (key a) (val a)) init) k =
      if l.any (fun a => key a == k) then some v else getA init k := by
  induction l generalizing init with
  | nil => simp
  | cons a rest ih =>
      rw [List.foldl_cons, ih (setA init (key a) (val a))
        (fun b hb hbk => h b (List.mem_cons_of_mem a hb) hbk), getA_setA]
      by_cases hr : rest.any (fun b => key b == k) = true
      · have hcond : (a :: rest).any (fun b => key b == k) = true := by
          simp [List.any_cons, hr]
        rw [if_pos hr, if_pos hcond]
      · have hr' : rest.any (fun b => key b == k) = false := by
          cases hx : rest.any (fun b => key b == k)
          · rfl
          · exact absurd hx hr
        rw [if_neg hr]
        by_cases ha : key a = k
        · have hv := h a (List.mem_cons_self a rest) ha
          have hcond : (a :: rest).any (fun b => key b == k) = true := by
            simp [List.any_cons, beq_iff_eq, ha]
          rw [if_pos ha.symm, if_pos hcond, hv]
        · have hab : (key a == k) = false := beq_eq_false_iff_ne.mpr ha
          have hcond : (a :: rest).any (fun b => key b == k) = false := by
            simp [List.any_cons, hab, hr']
          rw [if_neg (fun hk : k = key a => ha hk.symm), if_neg (by simp [hcond])]

theorem getA_foldl_setA_guard {β α : Type} (g : α → Bool) (key : α → String) (val : α → β)
    (l : List α) (init : List (String × β)) (k : String) (v : β)
    (h : ∀ a ∈ l, g a = true → key a = k → val a = v) :
    getA (l.foldl (fun acc a => if g a then setA acc (key a) (val a) else acc) init) k =
      if l.any (fun a => g a && (key a == k)) then some v else getA init k := by
  induction l generalizing init with
  | nil => simp
  | cons a rest ih =>
      rw [List.foldl_cons]
      by_cases hg : g a = true
      · rw [if_pos hg, ih (setA init (key a) (val a))
          (fun b hb hgb hbk => h b (List.mem_cons_of_mem a hb) hgb hbk), getA_setA]
        by_cases hr : rest.any (fun b => g b && (key b == k)) = true
        · have hcond : (a :: rest).any (fun b => g b && (key b == k)) = true := by
            simp [List.any_cons, hr]
          rw [if_pos hr, if_pos hcond]
        · have hr' : rest.any (fun b => g b && (key b == k)) = false := by
            cases hx : rest.any (fun b => g b && (key b == k))
            · rfl
            · exact absurd hx hr
          rw [if_neg hr]
          by_cases ha : key a = k
          · have hv := h a (List.mem_cons_self a rest) hg ha
            have hcond : (a :: rest).any (fun b => g b && (key b == k)) = true := by
              simp [List.any_cons, beq_iff_eq, ha, hg]
            rw [if_pos ha.symm, if_pos hcond, hv]
          · have hab : (key a == k) = false := beq_eq_false_iff_ne.mpr ha
            have hcond : (a :: rest).any (fun b => g b && (key b == k)) = false := by
              simp [List.any_cons, hab, hr']
            rw [if_neg (fun hk : k = key a => ha hk.symm), if_neg (by simp [hcond])]
      · have hg' : g a = false := by
          cases hx : g a
          · rfl
          · exact absurd hx hg
        rw [if_neg hg, ih init (fun b hb hgb hbk => h b (List.mem_cons_of_mem a hb) hgb hbk)]
        simp [List.any_cons, hg']

theorem getA_buildInitialTotals (pizzas : List Pizza) (k : String) :
    getA (buildInitialTotals pizzas) k =
      if pizzas.any (fun pizza => pizza.id == k) then some 0 else none :=
  getA_foldl_setA (fun pizza : Pizza => pizza.id) (fun _ => (0 : Nat)) pizzas [] k 0
    (fun _ _ _ => rfl)

theorem getA_normalizeTotals (pizzas : List Pizza) (input : Totals) (k : String) :
    getA (normalizeTotals pizzas input) k =
      if pizzas.any (fun pizza => pizza.id == k) then some ((getA input k).getD 0)
      else none := by
  have h : getA (normalizeTotals pizzas input) k =
      if pizzas.any (fun pizza => pizza.id == k) then some ((getA input k).getD 0)
      else getA (buildInitialTotals pizzas) k :=
    getA_foldl_setA (fun pizza : Pizza => pizza.id)
      (fun pizza => sanitizeQty (((getA input pizza.id).getD 0 : Nat) : Int))
      pizzas (buildInitialTotals pizzas) k ((getA input k).getD 0)
      (by
        intro a _ hk
        have hk2 : a.id = k := hk
        show sanitizeQty (((getA input a.id).getD 0 : Nat) : Int) = (getA input k).getD 0
        rw [hk2, sanitizeQty_natCast])
  rw [h, getA_buildInitialTotals]
  by_cases hc : pizzas.any (fun pizza => pizza.id == k) = true
  · rw [if_pos hc, if_pos hc]
  · rw [if_neg hc, if_neg hc, if_neg hc]

theorem totalsEqual_eq_true_iff (pizzas : List Pizza) (a b : Totals) :
    totalsEqual pizzas a b = true ↔
      ∀ pizza ∈ pizzas, (getA a pizza.id).getD 0 = (getA b pizza.id).getD 0 := by
  simp [totalsEqual, List.all_eq_true]

theorem totalsEqual_refl (pizzas : List Pizza) (a : Totals) :
    totalsEqual pizzas a a = true := by
  simp [totalsEqual, List.all_eq_true]

theorem mem_keys_setA {β : Type} {m : List (String × β)} {k x : String} {v : β}
    (hx : x ∈ (setA m k v).map Prod.fst) : x ∈ m.map Prod.fst ∨ x = k := by
  induction m with
  | nil =>
      simp [setA] at hx
      exact Or.inr hx
  | cons e rest ih =>
      by_cases he : e.1 = k
      · have heb : (e.1 == k) = true := beq_iff_eq.mpr he
        have hx2 : x ∈ ((k, v) :: rest).map Prod.fst := by
          have hset : setA (e :: rest) k v = (k, v) :: rest := by
            show (if e.1 == k then (k, v) :: rest else e :: setA rest k v) = _
            rw [if_pos heb]
          rw [hset] at hx
          exact hx
        rcases List.mem_cons.1 hx2 with hh | ht
        · exact Or.inr hh
        · exact Or.inl (List.mem_cons_of_mem _ ht)
      · have heb : (e.1 == k) = false := beq_eq_false_iff_ne.mpr he
        have hset : setA (e :: rest) k v = e :: setA rest k v := by
          show (if e.1 == k then (k, v) :: rest else e :: setA rest k v) = _
          rw [if_neg (by simp [heb])]
        rw [hset] at hx
        rcases List.mem_cons.1 hx with hh | ht
        · exact Or.inl (List.mem_cons.2 (Or.inl hh))
        · rcases ih ht with h1 | h2
          · exact Or.inl (List.mem_cons_of_mem _ h1)
          · exact Or.inr h2

theorem nodupKeys_setA {β : Type} (m : List (String × β)) (k : String) (v : β)
    (hnd : (m.map Prod.fst).Nodup) : ((setA m k v).map Prod.fst).Nodup := by
  induction m with
  | nil => simp [setA]
  | cons e rest ih =>
      simp only [List.map_cons, List.nodup_cons] at hnd
      by_cases he : e.1 = k
      · have heb : (e.1 == k) = true := beq_iff_eq.mpr he
        have hset : setA (e :: rest) k v = (k, v) :: rest := by
          show (if e.1 == k then (k, v) :: rest else e :: setA rest k v) = _
          rw [if_pos heb]
        rw [hset]
        simp only [List.map_cons, List.nodup_cons]
        exact ⟨he ▸ hnd.1, hnd.2⟩
      · have heb : (e.1 == k) = false := beq_eq_false_iff_ne.mpr he
        have hset : setA (e :: rest) k v = e :: setA rest k v := by
          show (if e.1 == k then (k, v) :: rest else e :: setA rest k v) = _
          rw [if_neg (by simp [heb])]
        rw [hset]
        simp only [List.map_cons, List.nodup_cons]
        refine ⟨?_, ih hnd.2⟩
        intro hmem
        rcases mem_keys_setA hmem with h1 | h2
        · exact hnd.1 h1
        · exact he h2

theorem nodupKeys_foldl_setA {β : Type} (l : List (String × β)) (store : List (String × β))
    (hnd : (store.map Prod.fst).Nodup) :
    ((l.foldl (fun st e => setA st e.1 e.2) store).map Prod.fst).Nodup := by
  induction l generalizing store with
  | nil => exact hnd
  | cons e rest ih =>
      rw [List.foldl_cons]
      exact ih _ (nodupKeys_setA store e.1 e.2 hnd)

theorem nodupKeys_upsertPizzaTotals (counts : List (String × Nat)) (store : Store)
    (hnd : (store.map Prod.fst).Nodup) :
    ((upsertPizzaTotals counts store).map Prod.fst).Nodup :=
  nodupKeys_foldl_setA (counts.map (fun e : String × Nat => (e.1, sanitizeQty ((e.2 : Nat) : Int)))) store hnd

theorem getA_eq_some_of_mem_nodup {β : Type} {m : List (String × β)} {k : String} {v : β}
    (hnd : (m.map Prod.fst).Nodup) (hm : (k, v) ∈ m) : getA m k = some v := by
  induction m with
  | nil => cases hm
  | cons e rest ih =>
      simp only [List.map_cons, List.nodup_cons] at hnd
      rcases List.mem_cons.1 hm with he | hrest
      · rw [← he]
        simp [getA]
      · have hek : e.1 ≠ k := by
          intro hk
          exact hnd.1 (by rw [hk]; exact List.mem_map.2 ⟨(k, v), hrest, rfl⟩)
        have heb : (e.1 == k) = false := beq_eq_false_iff_ne.mpr hek
        show (if e.1 == k then some e.2 else getA rest k) = some v
        rw [if_neg (by simp [heb])]
        exact ih hnd.2 hrest

theorem mem_of_getA_eq_some {β : Type} {m : List (String × β)} {k : String} {v : β}
    (h : getA m k = some v) : (k, v) ∈ m := by
  induction m with
  | nil => cases h
  | cons e rest ih =>
      obtain ⟨e1, e2⟩ := e
      by_cases he : e1 = k
      · have heb : (e1 == k) = true := beq_iff_eq.mpr he
        have h2 : some e2 = some v := by
          have h3 : (if e1 == k then some e2 else getA rest k) = some v := h
          rw [if_pos heb] at h3
          exact h3
        have hv : e2 = v := Option.some.injEq e2 v ▸ h2
        subst he
        subst hv
        exact List.mem_cons_self _ _
      · have heb : (e1 == k) = false := beq_eq_false_iff_ne.mpr he
        have h3 : (if e1 == k then some e2 else getA rest k) = some v := h
        rw [if_neg (by simp [heb])] at h3
        exact List.mem_cons_of_mem _ (ih h3)

theorem getA_upsertPizzaTotals (counts : List (String × Nat)) (store : Store)
    (f : String → Nat) (k : String)
    (h : ∀ e ∈ counts, e.2 = f e.1) :
    getA (upsertPizzaTotals counts store) k =
      if counts.any (fun e => e.1 == k) then some (f k) else getA store k := by
  have hmain : getA (upsertPizzaTotals counts store) k =
      if (counts.map (fun e : String × Nat => (e.1, sanitizeQty ((e.2 : Nat) : Int)))).any
          (fun e => e.1 == k) then some (f k)
      else getA store k :=
    getA_foldl_setA (fun e : String × Nat => e.1) (fun e : String × Nat => e.2)
      (counts.map (fun e : String × Nat => (e.1, sanitizeQty ((e.2 : Nat) : Int)))) store k (f k)
      (by
        intro a ha hak
        rcases List.mem_map.1 ha with ⟨e, he, rfl⟩
        show sanitizeQty ((e.2 : Nat) : Int) = f k
        have hek : e.1 = k := hak
        rw [sanitizeQty_natCast, h e he, hek])
  rw [hmain, List.any_map]
  rfl

theorem getA_buildTotalsFromRows (rows : Store) (pizzas : List Pizza) (k : String) (q : Nat)
    (hnd : (rows.map Prod.fst).Nodup)
    (hp : pizzas.any (fun pizza => pizza.id == k) = true)
    (hrow : getA rows k = some q) :
    getA (buildTotalsFromRows rows pizzas) k = some q := by
  have hkmem : (k, q) ∈ rows := mem_of_getA_eq_some hrow
  have hrows : rows.isEmpty = false := by
    cases rows
    · cases hkmem
    · rfl
  have hpizzas : pizzas.isEmpty = false := by
    cases pizzas
    · simp at hp
    · rfl
  have hcondf : (rows.isEmpty || pizzas.isEmpty) = false := by
    rw [hrows, hpizzas]
    rfl
  have hbody : buildTotalsFromRows rows pizzas =
      rows.foldl
        (fun acc row =>
          if pizzas.any (fun pizza => pizza.id == row.1) then
            setA acc row.1 (sanitizeQty ((row.2 : Nat) : Int))
          else acc)
        (buildInitialTotals pizzas) := by
    simp only [buildTotalsFromRows]
    rw [if_neg (by simp [hcondf])]
  rw [hbody]
  have hmain : getA
      (rows.foldl
        (fun acc row =>
          if pizzas.any (fun pizza => pizza.id == row.1) then
            setA acc row.1 (sanitizeQty ((row.2 : Nat) : Int))
          else acc)
        (buildInitialTotals pizzas)) k =
      if rows.any (fun row =>
          (pizzas.any (fun pizza => pizza.id == row.1)) && (row.1 == k)) then some q
      else getA (buildInitialTotals pizzas) k :=
    getA_foldl_setA_guard
      (fun row : String × Nat => pizzas.any (fun pizza => pizza.id == row.1))
      (fun row : String × Nat => row.1)
      (fun row : String × Nat => sanitizeQty ((row.2 : Nat) : Int))
      rows (buildInitialTotals pizzas) k q
      (by
        intro row hr _ hk
        obtain ⟨r1, r2⟩ := row
        have hk2 : r1 = k := hk
        subst hk2
        have hsome := getA_eq_some_of_mem_nodup hnd hr
        rw [hrow] at hsome
        have hq : q = r2 := by
          injection hsome
        show sanitizeQty ((r2 : Nat) : Int) = q
        rw [sanitizeQty_natCast, hq])
  rw [hmain, if_pos]
  rw [List.any_eq_true]
  refine ⟨(k, q), hkmem, ?_⟩
  simp [hp]

/-! Lemmas about applyTotals. -/

theorem applyTotals_totals_pointwise (s : CounterState) (incoming : Totals)
    (pizzas : List Pizza) (pizza : Pizza) (hp : pizza ∈ pizzas) :
    (getA (applyTotals s incoming pizzas).totals pizza.id).getD 0 =
      (getA (normalizeTotals pizzas incoming) pizza.id).getD 0 := by
  simp only [applyTotals]
  by_cases h : (s.hasLoaded && totalsEqual pizzas (normalizeTotals pizzas incoming) s.totals) = true
  · rw [if_pos h]
    have h2 := h
    rw [Bool.and_eq_true] at h2
    have heq := (totalsEqual_eq_true_iff pizzas _ _).1 h2.2 pizza hp
    exact heq.symm
  · rw [if_neg h]

theorem applyTotals_undoSnapshot (s : CounterState) (incoming : Totals) (pizzas : List Pizza) :
    (applyTotals s incoming pizzas).undoSnapshot = s.undoSnapshot := by
  simp only [applyTotals]
  split <;> rfl

theorem applyTotals_store (s : CounterState) (incoming : Totals) (pizzas : List Pizza) :
    (applyTotals s incoming pizzas).store = s.store := by
  simp only [applyTotals]
  split <;> rfl

theorem applyTotals_allowedPizzas (s : CounterState) (incoming : Totals) (pizzas : List Pizza) :
    (applyTotals s incoming pizzas).allowedPizzas = s.allowedPizzas := by
  simp only [applyTotals]
  split <;> rfl

theorem applyTotals_writeLog (s : CounterState) (incoming : Totals) (pizzas : List Pizza) :
    (applyTotals s incoming pizzas).writeLog = s.writeLog := by
  simp only [applyTotals]
  split <;> rfl

theorem applyTotals_restoringKey (s : CounterState) (incoming : Totals) (pizzas : List Pizza) :
    (applyTotals s incoming pizzas).restoringKey = s.restoringKey := by
  simp only [applyTotals]
  split <;> rfl

theorem applyTotals_feedback (s : CounterState) (incoming : Totals) (pizzas : List Pizza) :
    (applyTotals s incoming pizzas).feedback = s.feedback := by
  simp only [applyTotals]
  split <;> rfl

/-! Concrete fixtures used by the scenario theorems, counterexamples and
witnesses. -/

def pizzaA : Pizza := { id := "A", name := "Alpha", vegetarian := false, vegan := false }

def pizzaB : Pizza := { id := "B", name := "Beta", vegetarian := false, vegan := false }

def c1rows : List RawRow :=
  [ { pizza_id := some "A", new_qty := some 3, atTime := some 1001 },
    { pizza_id := some "B", new_qty := some 5, atTime := some 1002 },
    { pizza_id := some "A", new_qty := some 7, atTime := some 2001 } ]

def baseState : CounterState :=
  { allowedPizzas := [pizzaA],
    totals := [("A", 0)], draftTotals := [("A", 0)], previousTotals := [("A", 0)],
    hasLoaded := true, undoSnapshot := none, restoringKey := none,
    savingPizza := none, feedback := none, store := [("A", 0)], writeLog := [] }

/-- C1: for the allowed item set A, B and the adjustment log
[(A,3,t1001),(B,5,t1002),(A,7,t2001)], where 1001 ms and 1002 ms truncate to
second 1 and 2001 ms to the later second 2, buildSnapshots returns exactly 2
snapshots most-recent-first: the first (later) snapshot has per-item map
A:7, B:5 with changed set A only; the second (earlier) has A:3, B:5 with
changed set A, B; both per-item maps cover every allowed item. -/
theorem c1_bucketing_scenario :
    buildSnapshots c1rows [pizzaA, pizzaB] =
      [ { key := "2", atTime := 2001,
          items := [ { pizza_id := "A", new_qty := 7 }, { pizza_id := "B", new_qty := 5 } ],
          highlighted := ["A"], summary := "Alpha:7, Beta:5" },
        { key := "1", atTime := 1002,
          items := [ { pizza_id := "A", new_qty := 3 }, { pizza_id := "B", new_qty := 5 } ],
          highlighted := ["A", "B"], summary := "Alpha:3, Beta:5" } ] := by
  decide

/-- C9: reconciliation is idempotent: applying the same incoming totals map
twice through applyTotals leaves the whole state unchanged after the second
call, which takes the no-op branch. -/
theorem c9_applyTotals_idempotent (s : CounterState) (incoming : Totals)
    (pizzas : List Pizza) :
    applyTotals (applyTotals s incoming pizzas) incoming pizzas =
      applyTotals s incoming pizzas := by
  by_cases h :
      (s.hasLoaded && totalsEqual pizzas (normalizeTotals pizzas incoming) s.totals) = true
  · have h1 : applyTotals s incoming pizzas = s := by
      simp only [applyTotals]
      rw [if_pos h]
    rw [h1]
    exact h1
  · have h1 : applyTotals s incoming pizzas =
        { s with
          previousTotals :=
            if s.hasLoaded then normalizeTotals pizzas s.totals
            else normalizeTotals pizzas incoming,
          totals := normalizeTotals pizzas incoming,
          draftTotals := normalizeTotals pizzas incoming,
          hasLoaded := true } := by
      simp only [applyTotals]
      rw [if_neg h]
    rw [h1]
    simp only [applyTotals]
    rw [if_pos (by simp [totalsEqual_refl])]

def staleState : CounterState :=
  { baseState with
    totals := [("A", 3), ("B", 5)], draftTotals := [("A", 3), ("B", 5)],
    previousTotals := [("A", 3), ("B", 5)], store := [("A", 3), ("B", 5)] }

/-- C3 counterexample: with the allowed set already changed to A alone but
the committed map still carrying the stale B entry, a reconciliation whose
incoming map agrees on the overlapping item A is treated as unchanged by
applyTotals: the state is returned untouched, no reset to the new item
set's shape happens in the apply operation, and the stale B entry remains
in the committed map. -/
theorem c3_counterexample :
    applyTotals staleState [("A", 3)] [pizzaA] = staleState ∧
      getA (applyTotals staleState [("A", 3)] [pizzaA]).totals "B" = some 5 := by
  constructor
  · decide
  · decide

/-- C3 (amended): after an allowed-set change it is the re-normalization
effect, not applyTotals, that performs the full reset: it always leaves
previous, committed and draft totals with an entry exactly for the ids of
the new allowed set. -/
theorem c3_amended_effect_resets_shape (s : CounterState) (k : String) :
    (getA (renormalizeEffect s).totals k).isSome
        = s.allowedPizzas.any (fun pizza => pizza.id == k) ∧
      (getA (renormalizeEffect s).draftTotals k).isSome
        = s.allowedPizzas.any (fun pizza => pizza.id == k) ∧
      (getA (renormalizeEffect s).previousTotals k).isSome
        = s.allowedPizzas.any (fun pizza => pizza.id == k) := by
  refine ⟨?_, ?_, ?_⟩ <;>
  · simp only [renormalizeEffect]
    rw [getA_normalizeTotals]
    by_cases hc : s.allowedPizzas.any (fun pizza => pizza.id == k) = true
    · rw [if_pos hc, hc]
      rfl
    · have hc' : s.allowedPizzas.any (fun pizza => pizza.id == k) = false := by
        cases hx : s.allowedPizzas.any (fun pizza => pizza.id == k)
        · rfl
        · exact absurd hx hc
      rw [if_neg hc, hc']
      rfl

def restoringState : CounterState := { baseState with restoringKey := some "1" }

/-- C4 counterexample: with a restore in flight (restoringKey non-null), the
input-blur handler still issues a commit write: the write log grows while
restoringKey is set, refuting that no commit write can start during a
restore. -/
theorem c4_counterexample :
    restoringState.restoringKey ≠ none ∧
      (handleInputBlur true restoringState "A" 5).writeLog = [[("A", 5)]] ∧
      restoringState.writeLog = [] := by
  refine ⟨by decide, by decide, rfl⟩

/-- C4 (amended): only the adjust-button handler consults the restoring
flag: while restoringKey is non-null, handleAdjust is a complete no-op (so
no commit write is issued by it), whereas handleInputBlur and the Enter
handler reach commitCount unguarded. -/
theorem c4_amended_adjust_blocked_while_restoring (ok : Bool) (s : CounterState)
    (pizzaId : String) (delta : Int) (h : s.restoringKey ≠ none) :
    handleAdjust ok s pizzaId delta = s := by
  have hs : s.restoringKey.isSome = true := by
    cases hx : s.restoringKey
    · exact absurd hx h
    · rfl
  simp only [handleAdjust]
  rw [if_pos (by simp [hs])]

theorem c4_amended_witness :
    restoringState.restoringKey ≠ none ∧
      handleAdjust true restoringState "A" 1 = restoringState :=
  ⟨by decide,
    c4_amended_adjust_blocked_while_restoring true restoringState "A" 1 (by decide)⟩

/-- C5 counterexample: a commit whose remote write fails does not leave the
local state exactly as it was: commitCount writes the sanitized target into
the draft totals before attempting the remote write, and that draft change
survives the failure (an error message is also produced). -/
theorem c5_counterexample :
    (commitCount false baseState "A" 5).draftTotals ≠ baseState.draftTotals ∧
      (commitCount false baseState "A" 5).feedback
        = some (Feedback.error "Could not update pizzas.") := by
  constructor
  · decide
  · decide

/-- C5 (amended): on a failed remote write, committed totals, previous
totals, the undo snapshot and the store are unchanged for commit, restore
and undo, and only an error message is surfaced; draft totals are unchanged
for restore and undo, but a failed commit leaves the draft entry for the
committed item at the sanitized target, which commitCount writes before
attempting the remote write. -/
theorem c5_amended_failure_atomicity (s : CounterState) (pizzaId : String)
    (targetValue : Int) (now : Int) (snapshot : Snapshot) :
    (s.allowedPizzas.any (fun pizza => pizza.id == pizzaId) = true →
      sanitizeQty targetValue ≠ (getA s.totals pizzaId).getD 0 →
      commitCount false s pizzaId targetValue =
        { s with draftTotals := setA s.draftTotals pizzaId (sanitizeQty targetValue),
                 savingPizza := none,
                 feedback := some (Feedback.error "Could not update pizzas."),
                 writeLog := s.writeLog ++ [[(pizzaId, sanitizeQty targetValue)]] })
    ∧ (snapshot.items ≠ [] →
        restorePayload s.allowedPizzas snapshot.items ≠ [] →
        handleRestore false now s snapshot =
          { s with feedback := some (Feedback.error "Could not restore snapshot."),
                   restoringKey := none,
                   writeLog := s.writeLog ++ [restorePayload s.allowedPizzas snapshot.items] })
    ∧ (∀ undo, s.undoSnapshot = some undo →
        restorePayload s.allowedPizzas undo.items ≠ [] →
        handleUndo false s =
          { s with feedback := some (Feedback.error "Could not undo restore."),
                   restoringKey := none,
                   writeLog := s.writeLog ++ [restorePayload s.allowedPizzas undo.items] }) := by
  refine ⟨?_, ?_, ?_⟩
  · intro hallow hne
    have hbeq : (sanitizeQty targetValue == (getA s.totals pizzaId).getD 0) = false :=
      beq_eq_false_iff_ne.mpr hne
    simp only [commitCount, issueWrite]
    rw [if_neg (by simp [hallow])]
    simp [hbeq]
  · intro hitems hpay
    have hitemsE : snapshot.items.isEmpty = false := by
      cases hx : snapshot.items
      · exact absurd hx hitems
      · rfl
    have hpayE : (restorePayload s.allowedPizzas snapshot.items).isEmpty = false := by
      cases hx : restorePayload s.allowedPizzas snapshot.items
      · exact absurd hx hpay
      · rfl
    simp only [handleRestore, issueWrite]
    rw [if_neg (by simp [hitemsE])]
    simp [hpayE]
  · intro undo hundo hpay
    have hpayE : (restorePayload s.allowedPizzas undo.items).isEmpty = false := by
      cases hx : restorePayload s.allowedPizzas undo.items
      · exact absurd hx hpay
      · rfl
    simp only [handleUndo]
    rw [hundo]
    simp only [issueWrite]
    simp [hpayE]

theorem c5_amended_witness :
    commitCount false baseState "A" 5 =
      { baseState with draftTotals := setA baseState.draftTotals "A" (sanitizeQty 5),
                       savingPizza := none,
                       feedback := some (Feedback.error "Could not update pizzas."),
                       writeLog := baseState.writeLog ++ [[("A", sanitizeQty 5)]] } :=
  (c5_amended_failure_atomicity baseState "A" 5 0
      { key := "k", atTime := 0, items := [], highlighted := [], summary := "" }).1
    (by decide) (by decide)

/-- C7: commitCount with an item outside the current allowed set is a
complete silent no-op (no remote write, no feedback of any kind); and for
an allowed item whose sanitized target equals the last committed quantity,
commitCount performs no remote write and surfaces the distinct success
feedback (it also refreshes the draft entry to the sanitized target, which
equals the committed value). -/
theorem c7_commit_guard_and_noop (ok : Bool) (s : CounterState) (pizzaId : String)
    (targetValue : Int) :
    (s.allowedPizzas.any (fun pizza => pizza.id == pizzaId) = false →
      commitCount ok s pizzaId targetValue = s)
    ∧ (s.allowedPizzas.any (fun pizza => pizza.id == pizzaId) = true →
        sanitizeQty targetValue = (getA s.totals pizzaId).getD 0 →
        commitCount ok s pizzaId targetValue =
          { s with draftTotals := setA s.draftTotals pizzaId (sanitizeQty targetValue),
                   feedback := some (Feedback.success "All caught up.") }) := by
  constructor
  · intro hallow
    simp only [commitCount]
    rw [if_pos (by simp [hallow])]
  · intro hallow heq
    have hbeq : (sanitizeQty targetValue == (getA s.totals pizzaId).getD 0) = true :=
      beq_iff_eq.mpr heq
    simp only [commitCount]
    rw [if_neg (by simp [hallow])]
    simp [hbeq]

def syncedState : CounterState :=
  { baseState with totals := [("A", 5)], draftTotals := [("A", 5)], store := [("A", 5)] }

theorem c7_witness :
    commitCount true syncedState "C" 7 = syncedState ∧
      commitCount true syncedState "A" 5 =
        { syncedState with draftTotals := setA syncedState.draftTotals "A" (sanitizeQty 5),
                           feedback := some (Feedback.success "All caught up.") } :=
  ⟨(c7_commit_guard_and_noop true syncedState "C" 7).1 (by decide),
   (c7_commit_guard_and_noop true syncedState "A" 5).2 (by decide) (by decide)⟩

theorem restorePayload_allowed (pizzas : List Pizza) (items : List SnapshotItem) :
    ∀ e ∈ restorePayload pizzas items,
      pizzas.any (fun pizza => pizza.id == e.1) = true := by
  intro e he
  rcases List.mem_map.1 he with ⟨entry, hentry, rfl⟩
  exact (List.mem_filter.1 hentry).2

theorem handleRestore_writeLog (ok : Bool) (now : Int) (s : CounterState)
    (snapshot : Snapshot)
    (hitems : snapshot.items.isEmpty = false)
    (hpay : (restorePayload s.allowedPizzas snapshot.items).isEmpty = false) :
    (handleRestore ok now s snapshot).writeLog =
      s.writeLog ++ [restorePayload s.allowedPizzas snapshot.items] := by
  cases ok
  · simp only [handleRestore, issueWrite, handleSynchronizeTotals]
    rw [if_neg (by simp [hitems])]
    simp [hpay]
  · simp only [handleRestore, issueWrite, handleSynchronizeTotals]
    rw [if_neg (by simp [hitems])]
    simp [hpay, applyTotals_writeLog]

theorem handleUndo_writeLog (ok : Bool) (s : CounterState) (undo : Snapshot)
    (hundo : s.undoSnapshot = some undo)
    (hpay : (restorePayload s.allowedPizzas undo.items).isEmpty = false) :
    (handleUndo ok s).writeLog =
      s.writeLog ++ [restorePayload s.allowedPizzas undo.items] := by
  cases ok
  · simp only [handleUndo, issueWrite, handleSynchronizeTotals]
    rw [hundo]
    simp [hpay]
  · simp only [handleUndo, issueWrite, handleSynchronizeTotals]
    rw [hundo]
    simp [hpay, applyTotals_writeLog]

/-- C8: a restore is rejected with no remote write when the snapshot has no
items or when filtering them to the allowed set leaves none (distinct
"nothing valid to restore" feedback); any write a restore or undo does
issue is exactly the filtered payload, every entry of which has an id in
the currently allowed set. -/
theorem c8_restore_undo_filtering (ok : Bool) (now : Int) (s : CounterState)
    (snapshot : Snapshot) :
    (snapshot.items = [] →
      handleRestore ok now s snapshot =
        { s with feedback := some (Feedback.error "Snapshot has no data to restore.") })
    ∧ (snapshot.items ≠ [] →
        restorePayload s.allowedPizzas snapshot.items = [] →
        handleRestore ok now s snapshot =
          { s with
            feedback := some (Feedback.error "No valid pizzas to restore for this package."),
            restoringKey := none })
    ∧ ((handleRestore ok now s snapshot).writeLog = s.writeLog ∨
        (handleRestore ok now s snapshot).writeLog =
          s.writeLog ++ [restorePayload s.allowedPizzas snapshot.items])
    ∧ (∀ e ∈ restorePayload s.allowedPizzas snapshot.items,
        s.allowedPizzas.any (fun pizza => pizza.id == e.1) = true)
    ∧ (∀ undo, s.undoSnapshot = some undo →
        restorePayload s.allowedPizzas undo.items = [] →
        handleUndo ok s =
          { s with feedback := some (Feedback.error "Nothing to undo for this package."),
                   restoringKey := none })
    ∧ (∀ undo, s.undoSnapshot = some undo →
        ((handleUndo ok s).writeLog = s.writeLog ∨
          (handleUndo ok s).writeLog =
            s.writeLog ++ [restorePayload s.allowedPizzas undo.items]))
    ∧ (∀ undo, s.undoSnapshot = some undo →
        ∀ e ∈ restorePayload s.allowedPizzas undo.items,
          s.allowedPizzas.any (fun pizza => pizza.id == e.1) = true) := by
  refine ⟨?_, ?_, ?_, ?_, ?_, ?_, ?_⟩
  · intro h
    simp only [handleRestore]
    rw [if_pos (by simp [h])]
  · intro hne hpayE
    have hitemsE2 : snapshot.items.isEmpty = false := by
      cases hx : snapshot.items
      · exact absurd hx hne
      · rfl
    simp only [handleRestore]
    rw [if_neg (by simp [hitemsE2]), if_pos (by simp [hpayE])]
  · by_cases h1 : snapshot.items.isEmpty = true
    · left
      simp only [handleRestore]
      rw [if_pos (by simp [h1])]
    · have h1' : snapshot.items.isEmpty = false := by
        cases hx : snapshot.items.isEmpty
        · rfl
        · exact absurd hx h1
      by_cases h2 : (restorePayload s.allowedPizzas snapshot.items).isEmpty = true
      · left
        simp only [handleRestore]
        rw [if_neg (by simp [h1']), if_pos (by simp [h2])]
      · have h2' : (restorePayload s.allowedPizzas snapshot.items).isEmpty = false := by
          cases hx : (restorePayload s.allowedPizzas snapshot.items).isEmpty
          · rfl
          · exact absurd hx h2
        right
        exact handleRestore_writeLog ok now s snapshot h1' h2'
  · exact restorePayload_allowed s.allowedPizzas snapshot.items
  · intro undo hundo hpayE
    simp only [handleUndo]
    rw [hundo]
    simp only []
    rw [if_pos (by simp [hpayE])]
  · intro undo hundo
    by_cases h2 : (restorePayload s.allowedPizzas undo.items).isEmpty = true
    · left
      simp only [handleUndo]
      rw [hundo]
      simp only []
      rw [if_pos (by simp [h2])]
    · have h2' : (restorePayload s.allowedPizzas undo.items).isEmpty = false := by
        cases hx : (restorePayload s.allowedPizzas undo.items).isEmpty
        · rfl
        · exact absurd hx h2
      right
      exact handleUndo_writeLog ok s undo hundo h2'
  · intro undo _
    exact restorePayload_allowed s.allowedPizzas undo.items

def orphanSnapshot : Snapshot :=
  { key := "9", atTime := 9000, items := [ { pizza_id := "B", new_qty := 2 } ],
    highlighted := ["B"], summary := "Beta:2" }

theorem c8_witness :
    handleRestore true 0 baseState orphanSnapshot =
      { baseState with
        feedback := some (Feedback.error "No valid pizzas to restore for this package."),
        restoringKey := none } :=
  (c8_restore_undo_filtering true 0 baseState orphanSnapshot).2.1 (by decide) (by decide)

/-! Lemmas for bucketing determinism. -/

theorem insertionSort_eq_of_perm (l1 l2 : List NRow) (hperm : l1.Perm l2)
    (hd : l1.Pairwise (fun a b => a.atTime ≠ b.atTime)) :
    List.insertionSort rowLe l1 = List.insertionSort rowLe l2 := by
  have hs1 : List.Sorted rowLe (List.insertionSort rowLe l1) :=
    List.sorted_insertionSort rowLe l1
  have hs2 : List.Sorted rowLe (List.insertionSort rowLe l2) :=
    List.sorted_insertionSort rowLe l2
  have hp : (List.insertionSort rowLe l1).Perm (List.insertionSort rowLe l2) :=
    (List.perm_insertionSort rowLe l1).trans
      (hperm.trans (List.perm_insertionSort rowLe l2).symm)
  have hd1 : (List.insertionSort rowLe l1).Pairwise (fun a b => a.atTime ≠ b.atTime) :=
    ((List.perm_insertionSort rowLe l1).pairwise_iff (fun hab => Ne.symm hab)).mpr hd
  refine List.Perm.eq_of_sorted ?_ hs1 hs2 hp
  intro a b ha hb hab hba
  by_contra hne
  have hbb : b ∈ List.insertionSort rowLe l1 := hp.mem_iff.mpr hb
  have hneq := List.Pairwise.forall (fun _ _ hxy => Ne.symm hxy) hd1 ha hbb hne
  exact hneq (Int.le_antisymm hab hba)

theorem buildSnapshots_eq_of_sorted_eq (rows1 rows2 : List RawRow) (pizzas : List Pizza)
    (h : List.insertionSort rowLe (rows1.filterMap (normalizeRow pizzas)) =
      List.insertionSort rowLe (rows2.filterMap (normalizeRow pizzas))) :
    buildSnapshots rows1 pizzas = buildSnapshots rows2 pizzas := by
  simp only [buildSnapshots]
  rw [h]

def c6rows1 : List RawRow :=
  [ { pizza_id := some "A", new_qty := some 3, atTime := some 1000 },
    { pizza_id := some "A", new_qty := some 7, atTime := some 1000 } ]

def c6rows2 : List RawRow :=
  [ { pizza_id := some "A", new_qty := some 7, atTime := some 1000 },
    { pizza_id := some "A", new_qty := some 3, atTime := some 1000 } ]

/-- C6 counterexample: two orderings of the same multiset of log entries in
which two writes to the same item share one timestamp: the stable sort
keeps their input order, so the later-applied write differs between the two
orderings and buildSnapshots returns different snapshot lists. -/
theorem c6_counterexample :
    c6rows1.Perm c6rows2 ∧
      buildSnapshots c6rows1 [pizzaA] ≠ buildSnapshots c6rows2 [pizzaA] := by
  constructor
  · decide
  · decide

/-- C6 (amended): bucketing is order-independent provided the retained
(normalized) entries carry pairwise distinct timestamps: for any two
orderings of the multiset, buildSnapshots produces the identical ordered
snapshot list. -/
theorem c6_amended_bucketing_determinism (rows1 rows2 : List RawRow) (pizzas : List Pizza)
    (hperm : rows1.Perm rows2)
    (hd : (rows1.filterMap (normalizeRow pizzas)).Pairwise
      (fun a b => a.atTime ≠ b.atTime)) :
    buildSnapshots rows1 pizzas = buildSnapshots rows2 pizzas :=
  buildSnapshots_eq_of_sorted_eq rows1 rows2 pizzas
    (insertionSort_eq_of_perm _ _ (hperm.filterMap (normalizeRow pizzas)) hd)

def c6wrows1 : List RawRow :=
  [ { pizza_id := some "B", new_qty := some 5, atTime := some 1002 },
    { pizza_id := some "A", new_qty := some 3, atTime := some 1001 },
    { pizza_id := some "A", new_qty := some 7, atTime := some 2001 } ]

def c6wrows2 : List RawRow :=
  [ { pizza_id := some "A", new_qty := some 7, atTime := some 2001 },
    { pizza_id := some "B", new_qty := some 5, atTime := some 1002 },
    { pizza_id := some "A", new_qty := some 3, atTime := some 1001 } ]

theorem c6_amended_witness :
    buildSnapshots c6wrows1 [pizzaA, pizzaB] = buildSnapshots c6wrows2 [pizzaA, pizzaB] :=
  c6_amended_bucketing_determinism c6wrows1 c6wrows2 [pizzaA, pizzaB]
    (by decide) (by decide)

def exTable : List DbRow :=
  (List.range 51).map (fun k =>
    { pizza_id := "A", new_qty := 5, atTime := 1000 * ((50 : Int) - (k : Int)) })

set_option maxRecDepth 100000 in
/-- C10: the history fetch returns at most the 50 most recent adjustment
rows, so history snapshots are computed from at most 50 entries; on the
concrete 51-entry log exTable (item A written to 5 at seconds 0 to 50), the
window drops the oldest row and the replay seeds the running quantity at 0
at the start of the retained window: the windowed snapshot at 1000 ms marks
A as changed (0 to 5 from the seed), whereas the full-log replay at the
same moment marks nothing changed (its true pre-window value is already
5). -/
theorem c10_history_window_limit :
    (∀ table : List DbRow, (fetchHistoryRows table).length ≤ 50)
    ∧ (historySnapshots exTable [pizzaA]).length = 50
    ∧ (buildSnapshots (exTable.map toRaw) [pizzaA]).length = 51
    ∧ (historySnapshots exTable [pizzaA]).getLast?.map
        (fun s => (s.atTime, s.highlighted)) = some (1000, ["A"])
    ∧ (buildSnapshots (exTable.map toRaw) [pizzaA])[49]?.map
        (fun s => (s.atTime, s.highlighted)) = some (1000, []) := by
  refine ⟨?_, by decide, by decide, by decide, by decide⟩
  intro table
  exact List.length_take_le 50 (List.insertionSort dbDescAt table)

/-! Machinery for the restore-then-undo round trip. -/

/-- The previousItems list computed by handleRestore before its write: the
current committed totals for all allowed items. -/
def previousItemsOf (s : CounterState) : List SnapshotItem :=
  s.allowedPizzas.map (fun pizza =>
    { pizza_id := pizza.id,
      new_qty := (getA (normalizeTotals s.allowedPizzas s.totals) pizza.id).getD 0 })

/-- The undoHighlights list computed by handleRestore: allowed items whose
committed value differs from the snapshot value. -/
def undoHighlightsOf (s : CounterState) (snapshot : Snapshot) : List String :=
  (s.allowedPizzas.map (fun pizza => pizza.id)).filter
    (fun id =>
      (getA (snapshot.items.foldl
          (fun m entry => setA m entry.pizza_id entry.new_qty) []) id).getD 0
        != (getA (normalizeTotals s.allowedPizzas s.totals) id).getD 0)

/-- The undo snapshot handleRestore records, computed from the committed
totals as they stood before the write. -/
def undoSnapshotOf (s : CounterState) (snapshot : Snapshot) (now : Int) : Snapshot :=
  { key := "undo-" ++ toString now, atTime := now,
    items := previousItemsOf s,
    highlighted := undoHighlightsOf s snapshot,
    summary := buildSnapshotSummary s.allowedPizzas (previousItemsOf s) }

theorem filter_allowed_items (pizzas : List Pizza) (m : Totals) :
    (pizzas.map (fun pizza =>
        ({ pizza_id := pizza.id, new_qty := (getA m pizza.id).getD 0 } : SnapshotItem))).filter
      (fun entry => pizzas.any (fun pizza => pizza.id == entry.pizza_id)) =
    pizzas.map (fun pizza =>
      ({ pizza_id := pizza.id, new_qty := (getA m pizza.id).getD 0 } : SnapshotItem)) := by
  rw [List.filter_eq_self]
  intro a ha
  rcases List.mem_map.1 ha with ⟨p, hp, rfl⟩
  rw [List.any_eq_true]
  exact ⟨p, hp, by simp⟩

theorem restorePayload_previousItems (pizzas : List Pizza) (m : Totals) :
    restorePayload pizzas (pizzas.map (fun pizza =>
        ({ pizza_id := pizza.id, new_qty := (getA m pizza.id).getD 0 } : SnapshotItem))) =
      pizzas.map (fun pizza =>
        (pizza.id, sanitizeQty (((getA m pizza.id).getD 0 : Nat) : Int))) := by
  simp only [restorePayload]
  rw [filter_allowed_items, List.map_map]
  rfl

theorem roundtrip_store_read (store : Store) (pizzas : List Pizza) (m : Totals)
    (hnd : (store.map Prod.fst).Nodup) (pizza : Pizza) (hp : pizza ∈ pizzas) :
    getA (buildTotalsFromRows
        (upsertPizzaTotals (pizzas.map (fun pz =>
          (pz.id, sanitizeQty (((getA m pz.id).getD 0 : Nat) : Int)))) store)
        pizzas) pizza.id = some ((getA m pizza.id).getD 0) := by
  have hpmem : pizzas.any (fun pz => pz.id == pizza.id) = true :=
    List.any_eq_true.mpr ⟨pizza, hp, by simp⟩
  have hcounts : ∀ e ∈ pizzas.map (fun pz =>
      (pz.id, sanitizeQty (((getA m pz.id).getD 0 : Nat) : Int))),
      e.2 = (fun id => (getA m id).getD 0) e.1 := by
    intro e he
    rcases List.mem_map.1 he with ⟨pz, _, rfl⟩
    exact sanitizeQty_natCast _
  have hany : (pizzas.map (fun pz =>
      (pz.id, sanitizeQty (((getA m pz.id).getD 0 : Nat) : Int)))).any
      (fun e => e.1 == pizza.id) = true := by
    rw [List.any_eq_true]
    exact ⟨(pizza.id, sanitizeQty (((getA m pizza.id).getD 0 : Nat) : Int)),
      List.mem_map.2 ⟨pizza, hp, rfl⟩, by simp⟩
  have hget : getA (upsertPizzaTotals (pizzas.map (fun pz =>
      (pz.id, sanitizeQty (((getA m pz.id).getD 0 : Nat) : Int)))) store) pizza.id
      = some ((getA m pizza.id).getD 0) := by
    rw [getA_upsertPizzaTotals _ _ (fun id => (getA m id).getD 0) _ hcounts, if_pos hany]
  exact getA_buildTotalsFromRows _ pizzas _ _
    (nodupKeys_upsertPizzaTotals _ _ hnd) hpmem hget

theorem sync_clear_totals_pointwise (x : CounterState) (pizza : Pizza)
    (hp : pizza ∈ x.allowedPizzas) :
    (getA ({ handleSynchronizeTotals x with restoringKey := none }).totals pizza.id).getD 0 =
      (getA (normalizeTotals x.allowedPizzas
        (buildTotalsFromRows x.store x.allowedPizzas)) pizza.id).getD 0 := by
  show (getA (handleSynchronizeTotals x).totals pizza.id).getD 0 = _
  simp only [handleSynchronizeTotals]
  exact applyTotals_totals_pointwise x _ x.allowedPizzas pizza hp

theorem handleRestore_success (s : CounterState) (snapshot : Snapshot) (now : Int)
    (hitems : snapshot.items.isEmpty = false)
    (hpay : (restorePayload s.allowedPizzas snapshot.items).isEmpty = false) :
    handleRestore true now s snapshot =
      { handleSynchronizeTotals
          { s with restoringKey := some snapshot.key,
                   feedback := some (Feedback.success "Snapshot restored."),
                   writeLog := s.writeLog ++ [restorePayload s.allowedPizzas snapshot.items],
                   store := upsertPizzaTotals
                     (restorePayload s.allowedPizzas snapshot.items) s.store,
                   undoSnapshot := some (undoSnapshotOf s snapshot now) }
        with restoringKey := none } := by
  simp only [handleRestore, issueWrite]
  simp [hitems, hpay, undoSnapshotOf, previousItemsOf, undoHighlightsOf]

theorem handleUndo_success (s : CounterState) (undo : Snapshot)
    (hundo : s.undoSnapshot = some undo)
    (hpay : (restorePayload s.allowedPizzas undo.items).isEmpty = false) :
    handleUndo true s =
      { handleSynchronizeTotals
          { s with restoringKey := some "undo",
                   feedback := some (Feedback.success "Undo applied."),
                   undoSnapshot := none,
                   writeLog := s.writeLog ++ [restorePayload s.allowedPizzas undo.items],
                   store := upsertPizzaTotals (restorePayload s.allowedPizzas undo.items) s.store }
        with restoringKey := none } := by
  simp only [handleUndo, issueWrite]
  rw [hundo]
  simp [hpay]

/-- C2: restore-then-undo round trip: restoring any snapshot with at least
one allowed item and then immediately undoing returns the committed totals,
restricted to the allowed items, to their pre-restore values; the undo
snapshot recorded by the restore is the pre-write committed totals for all
allowed items; and a successful undo discards the undo snapshot. -/
theorem c2_restore_then_undo_roundtrip (s : CounterState) (snapshot : Snapshot) (now : Int)
    (hnd : (s.store.map Prod.fst).Nodup)
    (hpay : restorePayload s.allowedPizzas snapshot.items ≠ [])
    (hpz : s.allowedPizzas ≠ []) :
    totalsEqual s.allowedPizzas
        (handleUndo true (handleRestore true now s snapshot)).totals s.totals = true
    ∧ (handleRestore true now s snapshot).undoSnapshot.map (fun u => u.items) =
        some (s.allowedPizzas.map (fun pizza =>
          ({ pizza_id := pizza.id,
             new_qty := (getA (normalizeTotals s.allowedPizzas s.totals) pizza.id).getD 0 }
            : SnapshotItem)))
    ∧ (handleUndo true (handleRestore true now s snapshot)).undoSnapshot = none := by
  have hitems : snapshot.items ≠ [] := by
    intro h
    apply hpay
    rw [h]
    rfl
  have hitemsE : snapshot.items.isEmpty = false := by
    cases hx : snapshot.items
    · exact absurd hx hitems
    · rfl
  have hpayE : (restorePayload s.allowedPizzas snapshot.items).isEmpty = false := by
    cases hx : restorePayload s.allowedPizzas snapshot.items
    · exact absurd hx hpay
    · rfl
  have hR := handleRestore_success s snapshot now hitemsE hpayE
  set s1 := handleRestore true now s snapshot with hs1def
  have h1allowed : s1.allowedPizzas = s.allowedPizzas := by
    rw [hR]
    show (handleSynchronizeTotals _).allowedPizzas = _
    simp only [handleSynchronizeTotals]
    rw [applyTotals_allowedPizzas]
  have h1store : s1.store =
      upsertPizzaTotals (restorePayload s.allowedPizzas snapshot.items) s.store := by
    rw [hR]
    show (handleSynchronizeTotals _).store = _
    simp only [handleSynchronizeTotals]
    rw [applyTotals_store]
  have h1undo : s1.undoSnapshot = some (undoSnapshotOf s snapshot now) := by
    rw [hR]
    show (handleSynchronizeTotals _).undoSnapshot = _
    simp only [handleSynchronizeTotals]
    rw [applyTotals_undoSnapshot]
  have hpayU : (restorePayload s1.allowedPizzas (undoSnapshotOf s snapshot now).items).isEmpty
      = false := by
    rw [h1allowed]
    show (restorePayload s.allowedPizzas (previousItemsOf s)).isEmpty = false
    have hEq : restorePayload s.allowedPizzas (previousItemsOf s) =
        s.allowedPizzas.map (fun pizza =>
          (pizza.id,
            sanitizeQty (((getA (normalizeTotals s.allowedPizzas s.totals) pizza.id).getD 0
              : Nat) : Int))) := by
      show restorePayload s.allowedPizzas
          (s.allowedPizzas.map (fun pizza =>
            ({ pizza_id := pizza.id,
               new_qty := (getA (normalizeTotals s.allowedPizzas s.totals) pizza.id).getD 0 }
              : SnapshotItem))) = _
      exact restorePayload_previousItems s.allowedPizzas
        (normalizeTotals s.allowedPizzas s.totals)
    rw [hEq]
    cases hx : s.allowedPizzas
    · exact absurd hx hpz
    · rfl
  have hU := handleUndo_success s1 (undoSnapshotOf s snapshot now) h1undo hpayU
  refine ⟨?_, ?_, ?_⟩
  · rw [totalsEqual_eq_true_iff]
    intro pizza hp
    have hpmem : s.allowedPizzas.any (fun pz => pz.id == pizza.id) = true :=
      List.any_eq_true.mpr ⟨pizza, hp, by simp⟩
    have hpZ : pizza ∈ s1.allowedPizzas := by
      rw [h1allowed]
      exact hp
    have step1 : (getA (handleUndo true s1).totals pizza.id).getD 0 =
        (getA (normalizeTotals s1.allowedPizzas
          (buildTotalsFromRows
            (upsertPizzaTotals (restorePayload s1.allowedPizzas (previousItemsOf s)) s1.store)
            s1.allowedPizzas)) pizza.id).getD 0 := by
      rw [hU]
      exact sync_clear_totals_pointwise _ pizza hpZ
    rw [h1allowed, h1store] at step1
    have hpayEq : restorePayload s.allowedPizzas (previousItemsOf s) =
        s.allowedPizzas.map (fun pz =>
          (pz.id,
            sanitizeQty (((getA (normalizeTotals s.allowedPizzas s.totals) pz.id).getD 0
              : Nat) : Int))) := by
      show restorePayload s.allowedPizzas
          (s.allowedPizzas.map (fun pizza =>
            ({ pizza_id := pizza.id,
               new_qty := (getA (normalizeTotals s.allowedPizzas s.totals) pizza.id).getD 0 }
              : SnapshotItem))) = _
      exact restorePayload_previousItems s.allowedPizzas
        (normalizeTotals s.allowedPizzas s.totals)
    rw [hpayEq] at step1
    have hndStore1 : ((upsertPizzaTotals (restorePayload s.allowedPizzas snapshot.items)
        s.store).map Prod.fst).Nodup :=
      nodupKeys_upsertPizzaTotals _ _ hnd
    have hread := roundtrip_store_read
        (upsertPizzaTotals (restorePayload s.allowedPizzas snapshot.items) s.store)
        s.allowedPizzas (normalizeTotals s.allowedPizzas s.totals) hndStore1 pizza hp
    rw [getA_normalizeTotals, if_pos hpmem, hread] at step1
    simp only [Option.getD_some] at step1
    rw [getA_normalizeTotals, if_pos hpmem] at step1
    simp only [Option.getD_some] at step1
    exact step1
  · rw [h1undo]
    rfl
  · rw [hU]
    show (handleSynchronizeTotals _).undoSnapshot = none
    simp only [handleSynchronizeTotals]
    rw [applyTotals_undoSnapshot]

def roundtripSnapshot : Snapshot :=
  { key := "1", atTime := 1000, items := [ { pizza_id := "A", new_qty := 4 } ],
    highlighted := ["A"], summary := "Alpha:4" }

theorem c2_witness :
    totalsEqual baseState.allowedPizzas
        (handleUndo true (handleRestore true 5000 baseState roundtripSnapshot)).totals
        baseState.totals = true
    ∧ (handleRestore true 5000 baseState roundtripSnapshot).undoSnapshot.map
        (fun u => u.items) =
        some (baseState.allowedPizzas.map (fun pizza =>
          ({ pizza_id := pizza.id,
             new_qty := (getA (normalizeTotals baseState.allowedPizzas baseState.totals)
               pizza.id).getD 0 } : SnapshotItem)))
    ∧ (handleUndo true (handleRestore true 5000 baseState roundtripSnapshot)).undoSnapshot
        = none :=
  c2_restore_then_undo_roundtrip baseState roundtripSnapshot 5000
    (by decide) (by decide) (by decide)
